import Mathlib

/-!
Verification of the tppocr3 repository's core behavior.

The Rust source is embedded shallowly:

* `f32`/`f64` values (OCR confidences, similarity scores, presentation
  times, `chrono` timestamps measured in seconds) are modelled as exact
  rationals `ℚ`; the claims under scrutiny only compare such values
  against literal thresholds, so the ordered-field behaviour is what
  matters.
* `u32` fields become `ℕ`, `i32` fields become `ℤ`.
* The `eddie::JaroWinkler` similarity calculator is an external crate;
  it is kept abstract as a field of type `String → String → ℚ`,
  exactly as the Rust struct holds a calculator object.
* Fallible code returns `Option`/`Except`; the `unwrap` in
  `FixedLineProcessor::process` is modelled by returning `none` on the
  (unreachable) panic branch.
-/

namespace Tppocr

/-- `config::ProcessorStrategy` from `src/config.rs`. -/
inductive ProcessorStrategy where
  | FixedLine
  | DialogScroll
deriving DecidableEq, Inhabited, Repr

/-- `config::Region` from `src/config.rs`: integer rectangle plus strategy. -/
structure Region where
  x : ℕ
  y : ℕ
  width : ℕ
  height : ℕ
  processor : ProcessorStrategy
deriving DecidableEq, Inhabited, Repr

/-- `text_recognizer::BoundingBox` from `src/text_recognizer.rs`. -/
structure BoundingBox where
  confidence : ℚ
  x1 : ℤ
  y1 : ℤ
  x2 : ℤ
  y2 : ℤ
deriving DecidableEq, Inhabited, Repr

/-- `text_processor::TextItem`: the emitted stabilized text event. -/
structure TextItem where
  date : ℚ
  text : String
  confidence : ℚ
deriving DecidableEq, Inhabited, Repr

/-- `text_processor::InputTextItem`: a buffered candidate observation. -/
structure InputTextItem where
  date : ℚ
  text : String
  confidence : ℚ
  previous_similarity : Option ℚ
deriving DecidableEq, Inhabited, Repr

/-- `text_processor::FixedLineProcessor`.  The `VecDeque` output buffer is a
list whose `push_back` is append at the end and whose `pop_front` takes the
head; the similarity calculator is the abstract external collaborator. -/
structure FixedLineProcessor where
  region : Region
  input_buffer : List InputTextItem
  output_buffer : List TextItem
  similarity_calculator : String → String → ℚ

/-- `FixedLineProcessor::new`. -/
def FixedLineProcessor.new (region : Region) (sim : String → String → ℚ) :
    FixedLineProcessor :=
  { region := region
    input_buffer := []
    output_buffer := []
    similarity_calculator := sim }

/-- The x offset ratio computed inside `is_text_block_top_left`
(`src/text_processor.rs` line 141). -/
def ratioX (region : Region) (bounding_box : BoundingBox) : ℚ :=
  ((region.x : ℚ) - (bounding_box.x1 : ℚ)) / (region.width : ℚ)

/-- The y offset ratio computed inside `is_text_block_top_left`
(`src/text_processor.rs` line 142). -/
def ratioY (region : Region) (bounding_box : BoundingBox) : ℚ :=
  ((region.y : ℚ) - (bounding_box.y1 : ℚ)) / (region.height : ℚ)

/-- `is_text_block_top_left` from `src/text_processor.rs` lines 139-148. -/
def is_text_block_top_left (region : Region)
    (block_bounding_boxes : List BoundingBox) : Bool :=
  match block_bounding_boxes.head? with
  | some bounding_box =>
      decide (ratioX region bounding_box ≤ 1/5) &&
        decide (ratioY region bounding_box ≤ 1/5)
  | none => false

/-- `is_text_block_confidence_ok` from `src/text_processor.rs` lines 150-156. -/
def is_text_block_confidence_ok (threshold : ℚ)
    (block_bounding_boxes : List BoundingBox) : Bool :=
  match block_bounding_boxes.head? with
  | some bounding_box => decide (bounding_box.confidence ≥ threshold)
  | none => false

/-- One iteration of the best-candidate selection loop in
`FixedLineProcessor::flush_input_to_output_buffer` (lines 53-58): the
accumulator is `(best_confidence, best_index)`, updated only on a strictly
greater confidence. -/
def bestStep (acc : ℚ × ℕ) (p : ℕ × InputTextItem) : ℚ × ℕ :=
  if p.2.confidence > acc.1 then (p.2.confidence, p.1) else acc

/-- The whole selection loop of `flush_input_to_output_buffer`, folding
`bestStep` over the enumerated buffer starting from `(0.0, 0)`. -/
def findBest (items : List InputTextItem) : ℚ × ℕ :=
  items.enum.foldl bestStep ((0 : ℚ), (0 : ℕ))

/-- `FixedLineProcessor::flush_input_to_output_buffer`
(`src/text_processor.rs` lines 45-69). -/
def FixedLineProcessor.flush_input_to_output_buffer
    (s : FixedLineProcessor) : FixedLineProcessor :=
  if s.input_buffer.isEmpty then s
  else
    let best := findBest s.input_buffer
    let best_item := s.input_buffer.getD best.2 default
    { s with
      output_buffer := s.output_buffer ++
        [{ date := best_item.date
           text := best_item.text
           confidence := best_item.confidence }]
      input_buffer := [] }

/-- `FixedLineProcessor::process` (`src/text_processor.rs` lines 73-96).
Returns `none` exactly when the Rust code would panic on
`block_bounding_boxes.first().unwrap()`. -/
def FixedLineProcessor.process (s : FixedLineProcessor) (date : ℚ)
    (text : String) (block_bounding_boxes : List BoundingBox) :
    Option FixedLineProcessor :=
  if is_text_block_confidence_ok (3/5) block_bounding_boxes
      && is_text_block_top_left s.region block_bounding_boxes then
    let step :=
      match s.input_buffer.head? with
      | some item =>
          let similarity := s.similarity_calculator item.text text
          ((some similarity : Option ℚ),
            if similarity < 4/5 then s.flush_input_to_output_buffer else s)
      | none => ((none : Option ℚ), s)
    match block_bounding_boxes.head? with
    | some bounding_box =>
        some { step.2 with
          input_buffer := step.2.input_buffer ++
            [{ date := date
               text := text
               confidence := bounding_box.confidence
               previous_similarity := step.1 }] }
    | none => none
  else
    some s

/-- `FixedLineProcessor::poll_result` (`src/text_processor.rs` lines 98-112).
Returns the drained output queue (front first) together with the updated
processor state. -/
def FixedLineProcessor.poll_result (s : FixedLineProcessor) (date : ℚ) :
    List TextItem × FixedLineProcessor :=
  let s1 :=
    match s.input_buffer.getLast? with
    | some item =>
        if (5 : ℚ) < date - item.date then s.flush_input_to_output_buffer
        else s
    | none => s
  (s1.output_buffer, { s1 with output_buffer := [] })

/-- `text_processor::DialogScrollProcessor` (lines 118-126): its only state
is the region. -/
structure DialogScrollProcessor where
  region : Region
deriving DecidableEq, Inhabited, Repr

/-- `DialogScrollProcessor::process` (lines 129-131): a stub, does nothing. -/
def DialogScrollProcessor.process (s : DialogScrollProcessor) (_date : ℚ)
    (_text : String) (_block_bounding_boxes : List BoundingBox) :
    DialogScrollProcessor :=
  s

/-- `DialogScrollProcessor::poll_result` (lines 133-136): a stub, returns an
empty vector and leaves the state untouched. -/
def DialogScrollProcessor.poll_result (s : DialogScrollProcessor) (_date : ℚ) :
    List TextItem × DialogScrollProcessor :=
  ([], s)

/-- One OCR tick's worth of input handed to a text processor: the arguments
of a single `process` call. -/
structure Observation where
  date : ℚ
  text : String
  boxes : List BoundingBox
deriving DecidableEq, Inhabited, Repr

/-- The confidence of an observation's first block bounding box. -/
def obsConfidence (o : Observation) : ℚ :=
  (o.boxes.headD default).confidence

/-- The acceptance gate of `FixedLineProcessor::process` (line 74-75). -/
def accepted (region : Region) (o : Observation) : Bool :=
  is_text_block_confidence_ok (3/5) o.boxes &&
    is_text_block_top_left region o.boxes

/-- One `process` call on an accumulated optional state, propagating the
panic branch. -/
def processStep (acc : Option FixedLineProcessor) (o : Observation) :
    Option FixedLineProcessor :=
  acc.bind fun st => st.process o.date o.text o.boxes

/-- Feeding a whole sequence of observations through
`FixedLineProcessor::process`, propagating the panic branch. -/
def processAll (s : FixedLineProcessor) (l : List Observation) :
    Option FixedLineProcessor :=
  l.foldl processStep (some s)

/-- The candidate item that `process` pushes for observation `o` when the
buffer's similarity check produced `ps`. -/
def toInputItem (ps : Option ℚ) (o : Observation) : InputTextItem :=
  { date := o.date
    text := o.text
    confidence := obsConfidence o
    previous_similarity := ps }

/-! ### Basic lemmas about the gate and the buffers -/

theorem accepted_head {r : Region} {o : Observation} (h : accepted r o = true) :
    ∃ bb, o.boxes.head? = some bb ∧ (3/5 : ℚ) ≤ bb.confidence ∧
      ratioX r bb ≤ 1/5 ∧ ratioY r bb ≤ 1/5 ∧ obsConfidence o = bb.confidence := by
  unfold accepted is_text_block_confidence_ok is_text_block_top_left at h
  cases hB : o.boxes with
  | nil => rw [hB] at h; simp at h
  | cons b t =>
      rw [hB] at h
      simp only [List.head?_cons, Bool.and_eq_true, decide_eq_true_eq, ge_iff_le] at h
      refine ⟨b, rfl, h.1, h.2.1, h.2.2, ?_⟩
      unfold obsConfidence
      rw [hB]
      rfl

theorem flush_input_empty (s : FixedLineProcessor) :
    s.flush_input_to_output_buffer.input_buffer = [] := by
  unfold FixedLineProcessor.flush_input_to_output_buffer
  split
  · next h => exact List.isEmpty_iff.mp h
  · rfl

theorem flush_of_nil {s : FixedLineProcessor} (h : s.input_buffer = []) :
    s.flush_input_to_output_buffer = s := by
  unfold FixedLineProcessor.flush_input_to_output_buffer
  rw [h]
  rfl

theorem flush_singleton {s : FixedLineProcessor} {it : InputTextItem}
    (h : s.input_buffer = [it]) :
    s.flush_input_to_output_buffer =
      { s with
        output_buffer := s.output_buffer ++ [⟨it.date, it.text, it.confidence⟩]
        input_buffer := [] } := by
  unfold FixedLineProcessor.flush_input_to_output_buffer
  rw [h]
  have hbest : (findBest [it]).2 = 0 := by
    unfold findBest List.enum List.enumFrom
    simp only [List.foldl_cons, List.foldl_nil, bestStep]
    split <;> rfl
  simp only [List.isEmpty_cons, hbest]
  rfl

/-- Unfolding `process` when the gate rejects the observation. -/
theorem process_rejected {s : FixedLineProcessor} {o : Observation}
    (h : accepted s.region o = false) :
    s.process o.date o.text o.boxes = some s := by
  unfold FixedLineProcessor.process
  unfold accepted at h
  rw [h]
  rfl

/-- Unfolding `process` when the gate accepts and the buffer is empty. -/
theorem process_empty_buffer {s : FixedLineProcessor} {o : Observation}
    (hacc : accepted s.region o = true) (hbuf : s.input_buffer = []) :
    s.process o.date o.text o.boxes =
      some { s with input_buffer := [toInputItem none o] } := by
  obtain ⟨bb, hhead, _, _, _, hconf⟩ := accepted_head hacc
  unfold FixedLineProcessor.process
  unfold accepted at hacc
  rw [hacc, hhead, hbuf]
  simp only [List.head?_nil, if_true]
  rw [hbuf]
  simp only [List.nil_append, toInputItem, hconf]

/-- Unfolding `process` when the gate accepts, the buffer is non-empty and
the new text is similar (similarity not below 0.8) to the buffer's first
entry: the observation is appended, nothing is flushed. -/
theorem process_similar {s : FixedLineProcessor} {o : Observation}
    {it0 : InputTextItem} {rest : List InputTextItem}
    (hacc : accepted s.region o = true) (hbuf : s.input_buffer = it0 :: rest)
    (hsim : (4/5 : ℚ) ≤ s.similarity_calculator it0.text o.text) :
    s.process o.date o.text o.boxes =
      some { s with input_buffer := s.input_buffer ++
        [toInputItem (some (s.similarity_calculator it0.text o.text)) o] } := by
  obtain ⟨bb, hhead, _, _, _, hconf⟩ := accepted_head hacc
  unfold FixedLineProcessor.process
  unfold accepted at hacc
  rw [hacc, hhead, hbuf]
  simp only [List.head?_cons, if_true]
  rw [if_neg (by exact not_lt.mpr hsim)]
  rw [← hbuf]
  simp only [toInputItem, hconf]

/-- Unfolding `process` when the gate accepts, the buffer is non-empty and
the new text is dissimilar (similarity below 0.8) to the buffer's first
entry: the buffer is flushed first, then the observation starts a new
buffer. -/
theorem process_dissimilar {s : FixedLineProcessor} {o : Observation}
    {it0 : InputTextItem} {rest : List InputTextItem}
    (hacc : accepted s.region o = true) (hbuf : s.input_buffer = it0 :: rest)
    (hsim : s.similarity_calculator it0.text o.text < 4/5) :
    s.process o.date o.text o.boxes =
      some { s.flush_input_to_output_buffer with
        input_buffer :=
          [toInputItem (some (s.similarity_calculator it0.text o.text)) o] } := by
  obtain ⟨bb, hhead, _, _, _, hconf⟩ := accepted_head hacc
  unfold FixedLineProcessor.process
  unfold accepted at hacc
  rw [hacc, hhead, hbuf]
  simp only [List.head?_cons, if_true]
  rw [if_pos hsim]
  rw [flush_input_empty]
  simp only [List.nil_append, toInputItem, hconf]

/-! ### Concrete fixtures shared by the witnesses -/

def wRegion : Region := ⟨0, 0, 200, 40, ProcessorStrategy.FixedLine⟩

def wBox (c : ℚ) : BoundingBox := ⟨c, 0, 0, 10, 10⟩

def wSimOne : String → String → ℚ := fun _ _ => 1

def wSimZero : String → String → ℚ := fun _ _ => 0

def wItem : InputTextItem := ⟨10, "HELLO", 7/10, none⟩

def wBuffered : FixedLineProcessor :=
  { region := wRegion
    input_buffer := [wItem]
    output_buffer := []
    similarity_calculator := wSimOne }

/-! ### C1: the acceptance gate -/

/-- C1: an observation whose first block confidence is 0.59, or whose
top-left offset ratio from the region's corner exceeds 0.2 in either axis,
leaves the FixedLine stabilizer completely unchanged: it is never added to
the pending input buffer and hence never appears in any emitted TextEvent. -/
theorem fixedLine_gating_rejects (s : FixedLineProcessor) (date : ℚ)
    (text : String) (boxes : List BoundingBox) (bb : BoundingBox)
    (hhead : boxes.head? = some bb)
    (hbad : bb.confidence = 59/100 ∨ 1/5 < ratioX s.region bb ∨
      1/5 < ratioY s.region bb) :
    s.process date text boxes = some s := by
  have hgate : (is_text_block_confidence_ok (3/5) boxes &&
      is_text_block_top_left s.region boxes) = false := by
    rcases hbad with h | h | h
    · have hc : is_text_block_confidence_ok (3/5) boxes = false := by
        unfold is_text_block_confidence_ok
        rw [hhead]
        simp only [decide_eq_false_iff_not, ge_iff_le, not_le]
        rw [h]
        norm_num
      simp [hc]
    · have ht : is_text_block_top_left s.region boxes = false := by
        unfold is_text_block_top_left
        rw [hhead]
        simp only [Bool.and_eq_false_iff, decide_eq_false_iff_not, not_le]
        exact Or.inl h
      simp [ht]
    · have ht : is_text_block_top_left s.region boxes = false := by
        unfold is_text_block_top_left
        rw [hhead]
        simp only [Bool.and_eq_false_iff, decide_eq_false_iff_not, not_le]
        exact Or.inr h
      simp [ht]
  unfold FixedLineProcessor.process
  rw [hgate]
  rfl

theorem fixedLine_gating_rejects_witness :
    ([wBox (59/100)].head? = some (wBox (59/100))) ∧
    (wBox (59/100)).confidence = 59/100 ∧
    (FixedLineProcessor.new wRegion wSimOne).process 0 "HI" [wBox (59/100)] =
      some (FixedLineProcessor.new wRegion wSimOne) :=
  ⟨rfl, rfl,
    fixedLine_gating_rejects (FixedLineProcessor.new wRegion wSimOne) 0 "HI"
      [wBox (59/100)] (wBox (59/100)) rfl (Or.inl rfl)⟩

/-! ### C9: totality of `process` -/

/-- C9: `FixedLineProcessor::process` is total: the `unwrap` of the first
bounding box is reachable only under the gate, which requires a first box to
exist, so the panic branch (`none`) is unreachable; with an empty box list
the call returns the state unchanged. -/
theorem fixedLine_process_total (s : FixedLineProcessor) (date : ℚ)
    (text : String) (boxes : List BoundingBox) :
    (s.process date text boxes).isSome = true ∧
      (boxes = [] → s.process date text boxes = some s) := by
  by_cases hg : (is_text_block_confidence_ok (3/5) boxes &&
      is_text_block_top_left s.region boxes) = true
  · have hb : ∃ b, boxes.head? = some b := by
      have hc := (Bool.and_eq_true _ _).mp hg |>.1
      unfold is_text_block_confidence_ok at hc
      cases hhead : boxes.head? with
      | none => rw [hhead] at hc; simp at hc
      | some b => exact ⟨b, rfl⟩
    obtain ⟨b, hb⟩ := hb
    constructor
    · unfold FixedLineProcessor.process
      rw [hg, hb]
      simp
    · intro hnil
      rw [hnil] at hb
      simp at hb
  · have hg2 : (is_text_block_confidence_ok (3/5) boxes &&
        is_text_block_top_left s.region boxes) = false := by
      simpa using hg
    have : s.process date text boxes = some s := by
      unfold FixedLineProcessor.process
      rw [hg2]
      rfl
    exact ⟨by rw [this]; rfl, fun _ => this⟩

theorem fixedLine_process_total_witness :
    ((FixedLineProcessor.new wRegion wSimOne).process 0 "HI" []).isSome = true ∧
      (FixedLineProcessor.new wRegion wSimOne).process 0 "HI" [] =
        some (FixedLineProcessor.new wRegion wSimOne) := by
  have h := fixedLine_process_total (FixedLineProcessor.new wRegion wSimOne)
    0 "HI" []
  exact ⟨h.1, h.2 rfl⟩

/-! ### C10: the DialogScroll strategy is a stub -/

/-- C10: for every sequence of `process` calls with any inputs,
`DialogScrollProcessor::process` leaves its state unchanged and
`poll_result` always returns an empty list: a region configured with the
DialogScroll strategy never emits a TextEvent. -/
theorem dialogScroll_never_emits (s : DialogScrollProcessor)
    (l : List Observation) (date : ℚ) :
    l.foldl (fun st o => st.process o.date o.text o.boxes) s = s ∧
      s.poll_result date = ([], s) := by
  constructor
  · induction l with
    | nil => rfl
    | cons o t ih => rw [List.foldl_cons]; exact ih
  · rfl

/-- Unfolding `poll_result` when the buffer is non-empty. -/
theorem poll_result_def (s : FixedLineProcessor) (date : ℚ)
    (last : InputTextItem) (hlast : s.input_buffer.getLast? = some last) :
    s.poll_result date =
      if (5 : ℚ) < date - last.date then
        (s.flush_input_to_output_buffer.output_buffer,
          { s.flush_input_to_output_buffer with output_buffer := [] })
      else (s.output_buffer, { s with output_buffer := [] }) := by
  unfold FixedLineProcessor.poll_result
  rw [hlast]
  by_cases hc : (5 : ℚ) < date - last.date
  · simp only [if_pos hc]
  · simp only [if_neg hc]

/-! ### C4: the idle flush -/

/-- C4: on every poll, if the buffer is non-empty and its most recent
entry's timestamp is more than 5 seconds older than the poll's `now`, the
buffer is flushed even without a dissimilar successor; in particular a
single buffered observation polled at its timestamp plus 6 seconds is
flushed, and polled at its timestamp plus 4 seconds is not. -/
theorem fixedLine_idle_flush_after_five_seconds (s : FixedLineProcessor)
    (now : ℚ) (it last : InputTextItem)
    (hlast : s.input_buffer.getLast? = some last) :
    ((5 : ℚ) < now - last.date → (s.poll_result now).2.input_buffer = []) ∧
    (s.input_buffer = [it] → s.output_buffer = [] →
      (s.poll_result (it.date + 6)).1 = [⟨it.date, it.text, it.confidence⟩] ∧
      (s.poll_result (it.date + 6)).2.input_buffer = [] ∧
      (s.poll_result (it.date + 4)).1 = [] ∧
      (s.poll_result (it.date + 4)).2.input_buffer = [it]) := by
  constructor
  · intro hnow
    rw [poll_result_def s now last hlast, if_pos hnow]
    exact flush_input_empty s
  · intro hbuf hout
    have hl : s.input_buffer.getLast? = some it := by rw [hbuf]; rfl
    have hflush := flush_singleton hbuf
    have hpos : (5 : ℚ) < it.date + 6 - it.date := by linarith
    have hneg : ¬ (5 : ℚ) < it.date + 4 - it.date := by linarith
    refine ⟨?_, ?_, ?_, ?_⟩
    · rw [poll_result_def s (it.date + 6) it hl, if_pos hpos, hflush, hout]
      rfl
    · rw [poll_result_def s (it.date + 6) it hl, if_pos hpos, hflush]
    · rw [poll_result_def s (it.date + 4) it hl, if_neg hneg]
      exact hout
    · rw [poll_result_def s (it.date + 4) it hl, if_neg hneg]
      exact hbuf

theorem fixedLine_idle_flush_after_five_seconds_witness :
    ((5 : ℚ) < 16 - wItem.date) ∧
    (wBuffered.poll_result 16).2.input_buffer = [] ∧
    (wBuffered.poll_result (wItem.date + 6)).1 =
      [⟨wItem.date, wItem.text, wItem.confidence⟩] ∧
    (wBuffered.poll_result (wItem.date + 6)).2.input_buffer = [] ∧
    (wBuffered.poll_result (wItem.date + 4)).1 = [] ∧
    (wBuffered.poll_result (wItem.date + 4)).2.input_buffer = [wItem] := by
  have h := fixedLine_idle_flush_after_five_seconds wBuffered 16 wItem wItem rfl
  have h2 := h.2 rfl rfl
  exact ⟨by norm_num [wItem], h.1 (by norm_num [wItem]), h2.1, h2.2.1,
    h2.2.2.1, h2.2.2.2⟩

/-! ### Stepping lemmas for `processAll` -/

theorem processAll_nil (s : FixedLineProcessor) : processAll s [] = some s :=
  rfl

theorem foldl_process_none (l : List Observation) :
    l.foldl processStep none = none := by
  induction l with
  | nil => rfl
  | cons o t ih => rw [List.foldl_cons]; exact ih

theorem processAll_cons (s : FixedLineProcessor) (o : Observation)
    (l : List Observation) :
    processAll s (o :: l) =
      (s.process o.date o.text o.boxes).bind fun s2 => processAll s2 l := by
  unfold processAll
  rw [List.foldl_cons]
  have hstep : processStep (some s) o = s.process o.date o.text o.boxes := rfl
  rw [hstep]
  cases h : s.process o.date o.text o.boxes with
  | some s2 => rfl
  | none => exact foldl_process_none l

/-! ### C3: a dissimilar successor flushes first -/

/-- C3: feeding accepted observation A, then accepted observation B whose
similarity to the buffer's first entry is below 0.8, flushes A's best
candidate as a TextEvent strictly before B is appended to the buffer
(afterwards the output queue holds A's event while the input buffer holds
only B); a poll immediately after (within the idle window) yields exactly
one event, A's, and a later flush yields B's. -/
theorem fixedLine_dissimilar_flushes_before_buffering (r : Region)
    (sim : String → String → ℚ) (oA oB : Observation) (now : ℚ)
    (hA : accepted r oA = true) (hB : accepted r oB = true)
    (hsim : sim oA.text oB.text < 4/5) (hnow : now - oB.date ≤ 5) :
    ∃ s2, processAll (FixedLineProcessor.new r sim) [oA, oB] = some s2 ∧
      s2.output_buffer = [⟨oA.date, oA.text, obsConfidence oA⟩] ∧
      s2.input_buffer.map (fun it => (it.date, it.text, it.confidence)) =
        [(oB.date, oB.text, obsConfidence oB)] ∧
      (s2.poll_result now).1 = [⟨oA.date, oA.text, obsConfidence oA⟩] ∧
      (s2.poll_result now).2.flush_input_to_output_buffer.output_buffer =
        [⟨oB.date, oB.text, obsConfidence oB⟩] := by
  have hacc1 : accepted (FixedLineProcessor.new r sim).region oA = true := hA
  have h1 : (FixedLineProcessor.new r sim).process oA.date oA.text oA.boxes =
      some (⟨r, [toInputItem none oA], [], sim⟩ : FixedLineProcessor) :=
    process_empty_buffer hacc1 rfl
  have hacc2 : accepted
      (⟨r, [toInputItem none oA], [], sim⟩ : FixedLineProcessor).region oB =
      true := hB
  have h2 := process_dissimilar
    (s := (⟨r, [toInputItem none oA], [], sim⟩ : FixedLineProcessor))
    hacc2 rfl hsim
  rw [flush_singleton
    (s := (⟨r, [toInputItem none oA], [], sim⟩ : FixedLineProcessor))
    rfl] at h2
  have h2' : (⟨r, [toInputItem none oA], [], sim⟩ :
      FixedLineProcessor).process oB.date oB.text oB.boxes =
      some (⟨r, [toInputItem (some (sim oA.text oB.text)) oB],
        [⟨oA.date, oA.text, obsConfidence oA⟩], sim⟩ : FixedLineProcessor) :=
    h2
  have hnot : ¬ (5 : ℚ) < now -
      (toInputItem (some (sim oA.text oB.text)) oB).date :=
    not_lt.mpr hnow
  have hpoll := poll_result_def
    (⟨r, [toInputItem (some (sim oA.text oB.text)) oB],
      [⟨oA.date, oA.text, obsConfidence oA⟩], sim⟩ : FixedLineProcessor) now
    (toInputItem (some (sim oA.text oB.text)) oB) rfl
  rw [if_neg hnot] at hpoll
  refine ⟨⟨r, [toInputItem (some (sim oA.text oB.text)) oB],
    [⟨oA.date, oA.text, obsConfidence oA⟩], sim⟩, ?_, rfl, rfl, ?_, ?_⟩
  · rw [processAll_cons, h1, Option.some_bind, processAll_cons, h2',
      Option.some_bind, processAll_nil]
  · rw [hpoll]
  · rw [hpoll]
    show (⟨r, [toInputItem (some (sim oA.text oB.text)) oB], [], sim⟩ :
        FixedLineProcessor).flush_input_to_output_buffer.output_buffer =
      [⟨oB.date, oB.text, obsConfidence oB⟩]
    rw [flush_singleton
      (s := (⟨r, [toInputItem (some (sim oA.text oB.text)) oB], [], sim⟩ :
        FixedLineProcessor)) rfl]
    rfl

def wObsA : Observation := ⟨0, "HELLO", [wBox (7/10)]⟩

def wObsB : Observation := ⟨1, "BYE", [wBox (8/10)]⟩

def wObsC : Observation := ⟨1, "HELL0", [wBox (9/10)]⟩

theorem wObsA_accepted : accepted wRegion wObsA = true := by
  unfold accepted is_text_block_confidence_ok is_text_block_top_left wObsA
    wRegion wBox
  simp only [List.head?_cons, Bool.and_eq_true, decide_eq_true_eq, ge_iff_le]
  refine ⟨by norm_num, ?_, ?_⟩ <;> (simp only [ratioX, ratioY]; norm_num)

theorem wObsB_accepted : accepted wRegion wObsB = true := by
  unfold accepted is_text_block_confidence_ok is_text_block_top_left wObsB
    wRegion wBox
  simp only [List.head?_cons, Bool.and_eq_true, decide_eq_true_eq, ge_iff_le]
  refine ⟨by norm_num, ?_, ?_⟩ <;> (simp only [ratioX, ratioY]; norm_num)

theorem wObsC_accepted : accepted wRegion wObsC = true := by
  unfold accepted is_text_block_confidence_ok is_text_block_top_left wObsC
    wRegion wBox
  simp only [List.head?_cons, Bool.and_eq_true, decide_eq_true_eq, ge_iff_le]
  refine ⟨by norm_num, ?_, ?_⟩ <;> (simp only [ratioX, ratioY]; norm_num)

theorem fixedLine_dissimilar_flushes_before_buffering_witness :
    ∃ s2, processAll (FixedLineProcessor.new wRegion wSimZero)
        [wObsA, wObsB] = some s2 ∧
      s2.output_buffer = [⟨wObsA.date, wObsA.text, obsConfidence wObsA⟩] ∧
      s2.input_buffer.map (fun it => (it.date, it.text, it.confidence)) =
        [(wObsB.date, wObsB.text, obsConfidence wObsB)] ∧
      (s2.poll_result 2).1 =
        [⟨wObsA.date, wObsA.text, obsConfidence wObsA⟩] ∧
      (s2.poll_result 2).2.flush_input_to_output_buffer.output_buffer =
        [⟨wObsB.date, wObsB.text, obsConfidence wObsB⟩] :=
  fixedLine_dissimilar_flushes_before_buffering wRegion wSimZero wObsA wObsB 2
    wObsA_accepted wObsB_accepted (by norm_num [wSimZero])
    (by norm_num [wObsB])

/-! ### The best-candidate selection loop -/

theorem enumFrom_append_singleton {α : Type*} (n : ℕ) (l : List α) (x : α) :
    List.enumFrom n (l ++ [x]) = List.enumFrom n l ++ [(n + l.length, x)] := by
  induction l generalizing n with
  | nil => simp [List.enumFrom]
  | cons a t ih =>
      simp only [List.cons_append, List.enumFrom, List.length_cons]
      rw [show (t.append [x]) = t ++ [x] from rfl, ih]
      have harith : n + 1 + t.length = n + (t.length + 1) := by omega
      rw [harith]

theorem enum_append_singleton {α : Type*} (l : List α) (x : α) :
    (l ++ [x]).enum = l.enum ++ [(l.length, x)] := by
  unfold List.enum
  rw [enumFrom_append_singleton]
  norm_num

theorem findBest_concat (l : List InputTextItem) (x : InputTextItem) :
    findBest (l ++ [x]) = bestStep (findBest l) (l.length, x) := by
  unfold findBest
  rw [enum_append_singleton, List.foldl_append]
  rfl

theorem getD_mem_of_lt (l : List InputTextItem) (j : ℕ) (hj : j < l.length) :
    l.getD j default ∈ l := by
  rw [List.getD_eq_getElem l default hj]
  exact List.getElem_mem hj

/-- The selection loop picks the first buffered item achieving the maximal
confidence, provided every confidence is positive (which the 0.6 acceptance
gate guarantees). -/
theorem findBest_spec (l : List InputTextItem) (hne : l ≠ [])
    (hpos : ∀ x ∈ l, 0 < x.confidence) :
    (findBest l).2 < l.length ∧
    (l.getD (findBest l).2 default).confidence = (findBest l).1 ∧
    (∀ x ∈ l, x.confidence ≤ (findBest l).1) ∧
    (∀ j, j < (findBest l).2 → (l.getD j default).confidence <
      (findBest l).1) := by
  induction l using List.reverseRecOn with
  | nil => exact absurd rfl hne
  | append_singleton t x ih =>
    rw [findBest_concat]
    by_cases ht : t = []
    · subst ht
      have hx : 0 < x.confidence := hpos x (by simp)
      have hstep : bestStep (findBest []) (List.length ([] : List InputTextItem), x) =
          (x.confidence, 0) := by
        unfold bestStep
        dsimp only [findBest, List.enum, List.enumFrom, List.foldl,
          List.length_nil]
        rw [if_pos hx]
      rw [hstep]
      refine ⟨by simp, by simp, ?_, ?_⟩
      · intro y hy
        simp only [List.nil_append, List.mem_singleton] at hy
        subst hy
        exact le_refl _
      · intro j hj
        exact absurd hj (Nat.not_lt_zero j)
    · have hpos2 : ∀ y ∈ t, 0 < y.confidence := fun y hy =>
        hpos y (by simp [hy])
      obtain ⟨ih1, ih2, ih3, ih4⟩ := ih ht hpos2
      by_cases hcmp : x.confidence > (findBest t).1
      · have hstep : bestStep (findBest t) (t.length, x) =
            (x.confidence, t.length) := by
          unfold bestStep
          dsimp only
          rw [if_pos hcmp]
        rw [hstep]
        refine ⟨by simp, ?_, ?_, ?_⟩
        · rw [List.getD_append_right t [x] default t.length le_rfl]
          simp
        · intro y hy
          rcases List.mem_append.mp hy with h | h
          · exact le_of_lt (lt_of_le_of_lt (ih3 y h) hcmp)
          · simp only [List.mem_singleton] at h
            subst h
            exact le_refl _
        · intro j hj
          rw [List.getD_append t [x] default j hj]
          exact lt_of_le_of_lt (ih3 _ (getD_mem_of_lt t j hj)) hcmp
      · have hstep : bestStep (findBest t) (t.length, x) = findBest t := by
          unfold bestStep
          dsimp only
          rw [if_neg hcmp]
        rw [hstep]
        refine ⟨?_, ?_, ?_, ?_⟩
        · simp only [List.length_append, List.length_singleton]
          omega
        · rw [List.getD_append t [x] default _ ih1]
          exact ih2
        · intro y hy
          rcases List.mem_append.mp hy with h | h
          · exact ih3 y h
          · simp only [List.mem_singleton] at h
            subst h
            exact not_lt.mp hcmp
        · intro j hj
          rw [List.getD_append t [x] default j (lt_trans hj ih1)]
          exact ih4 j hj

/-! ### Buffer accumulation for similar accepted observations -/

theorem accepted_conf {r : Region} {o : Observation}
    (h : accepted r o = true) : (3/5 : ℚ) ≤ obsConfidence o := by
  obtain ⟨bb, _, hc, _, _, he⟩ := accepted_head h
  rw [he]
  exact hc

/-- Unfolding `flush_input_to_output_buffer` on a non-empty buffer. -/
theorem flush_of_ne {s : FixedLineProcessor} (h : s.input_buffer ≠ []) :
    s.flush_input_to_output_buffer =
      { s with
        output_buffer := s.output_buffer ++
          [{ date := (s.input_buffer.getD (findBest s.input_buffer).2
                default).date
             text := (s.input_buffer.getD (findBest s.input_buffer).2
                default).text
             confidence := (s.input_buffer.getD (findBest s.input_buffer).2
                default).confidence }]
        input_buffer := [] } := by
  unfold FixedLineProcessor.flush_input_to_output_buffer
  rw [if_neg (by simpa using h)]

/-- The buffered items produced by a run of observations that were all
compared against anchor `it0`. -/
def mapSimilar (s : FixedLineProcessor) (it0 : InputTextItem)
    (l : List Observation) : List InputTextItem :=
  l.map fun o => toInputItem (some (s.similarity_calculator it0.text o.text)) o

/-- Processing a run of accepted observations that are all similar to the
buffer's first entry appends each of them without flushing anything. -/
theorem processAll_similar_run (l : List Observation) :
    ∀ (s : FixedLineProcessor) (it0 : InputTextItem)
      (rest : List InputTextItem),
    s.input_buffer = it0 :: rest →
    (∀ o ∈ l, accepted s.region o = true) →
    (∀ o ∈ l, (4/5 : ℚ) ≤ s.similarity_calculator it0.text o.text) →
    processAll s l =
      some { s with
        input_buffer := s.input_buffer ++ mapSimilar s it0 l } := by
  induction l with
  | nil =>
      intro s it0 rest hbuf _ _
      rw [show mapSimilar s it0 [] = [] from rfl, List.append_nil]
      rfl
  | cons o t ih =>
      intro s it0 rest hbuf hacc hsim
      have ho := process_similar (hacc o (by simp)) hbuf (hsim o (by simp))
      rw [processAll_cons, ho, Option.some_bind]
      have hbuf2 : ({ s with input_buffer := s.input_buffer ++
          [toInputItem (some (s.similarity_calculator it0.text o.text)) o] } :
            FixedLineProcessor).input_buffer =
          it0 :: (rest ++
            [toInputItem (some (s.similarity_calculator it0.text o.text)) o]) := by
        simp [hbuf]
      have hrun := ih _ it0 _ hbuf2
        (fun o2 ho2 => hacc o2 (by simp [ho2]))
        (fun o2 ho2 => hsim o2 (by simp [ho2]))
      rw [hrun]
      congr 1
      rw [hbuf]
      simp only [mapSimilar, List.map_cons, List.cons_append,
        List.append_assoc, List.singleton_append, List.nil_append]

theorem mapSimilar_getD (s : FixedLineProcessor) (it0 : InputTextItem)
    (t : List Observation) (k : ℕ) (hk : k < t.length) :
    (mapSimilar s it0 t).getD k default =
      toInputItem (some (s.similarity_calculator it0.text
        (t.getD k default).text)) (t.getD k default) := by
  induction t generalizing k with
  | nil => simp at hk
  | cons a t2 ih =>
      cases k with
      | zero => rfl
      | succ k2 => exact ih k2 (by simpa using hk)

/-- Componentwise correspondence between the buffer built from a run of
observations and the observations themselves. -/
theorem buffer_corr (r : Region) (sim : String → String → ℚ)
    (o0 : Observation) (t : List Observation) (j : ℕ)
    (hj : j < (o0 :: t).length) :
    ((toInputItem none o0 ::
        mapSimilar (⟨r, [toInputItem none o0], [], sim⟩ : FixedLineProcessor)
          (toInputItem none o0) t).getD j default).date =
      ((o0 :: t).getD j default).date ∧
    ((toInputItem none o0 ::
        mapSimilar (⟨r, [toInputItem none o0], [], sim⟩ : FixedLineProcessor)
          (toInputItem none o0) t).getD j default).text =
      ((o0 :: t).getD j default).text ∧
    ((toInputItem none o0 ::
        mapSimilar (⟨r, [toInputItem none o0], [], sim⟩ : FixedLineProcessor)
          (toInputItem none o0) t).getD j default).confidence =
      obsConfidence ((o0 :: t).getD j default) := by
  cases j with
  | zero => exact ⟨rfl, rfl, rfl⟩
  | succ k =>
      have hk : k < t.length := by simpa using hj
      rw [List.getD_cons_succ, List.getD_cons_succ,
        mapSimilar_getD _ _ _ k hk]
      exact ⟨rfl, rfl, rfl⟩

/-! ### C2: one flush, one best event -/

/-- C2: feeding any non-empty run of accepted observations whose texts are
pairwise similar (similarity at least 0.8), then flushing, emits exactly one
TextEvent; its confidence is the maximum of the run's confidences and its
text and timestamp are those of the earliest observation achieving that
maximum, and the input buffer is empty afterwards. -/
theorem fixedLine_flush_single_best_event (r : Region)
    (sim : String → String → ℚ) (l : List Observation) (hne : l ≠ [])
    (hacc : ∀ o ∈ l, accepted r o = true)
    (hsim : ∀ a ∈ l, ∀ b ∈ l, (4/5 : ℚ) ≤ sim a.text b.text) :
    ∃ s1, processAll (FixedLineProcessor.new r sim) l = some s1 ∧
      s1.output_buffer = [] ∧
      s1.flush_input_to_output_buffer.input_buffer = [] ∧
      ∃ e i, s1.flush_input_to_output_buffer.output_buffer = [e] ∧
        i < l.length ∧
        e.date = (l.getD i default).date ∧
        e.text = (l.getD i default).text ∧
        e.confidence = obsConfidence (l.getD i default) ∧
        (∀ o ∈ l, obsConfidence o ≤ e.confidence) ∧
        (∀ j, j < i → obsConfidence (l.getD j default) < e.confidence) := by
  cases l with
  | nil => exact absurd rfl hne
  | cons o0 t =>
    have hacc0 : accepted (FixedLineProcessor.new r sim).region o0 = true :=
      hacc o0 (by simp)
    have h1 : (FixedLineProcessor.new r sim).process o0.date o0.text
        o0.boxes =
        some (⟨r, [toInputItem none o0], [], sim⟩ : FixedLineProcessor) :=
      process_empty_buffer hacc0 rfl
    have hrun := processAll_similar_run t
      (⟨r, [toInputItem none o0], [], sim⟩ : FixedLineProcessor)
      (toInputItem none o0) [] rfl
      (fun o2 ho2 => hacc o2 (by simp [ho2]))
      (fun o2 ho2 => hsim o0 (by simp) o2 (by simp [ho2]))
    have hkey : processAll (FixedLineProcessor.new r sim) (o0 :: t) =
        some (⟨r, toInputItem none o0 ::
          mapSimilar (⟨r, [toInputItem none o0], [], sim⟩ :
            FixedLineProcessor) (toInputItem none o0) t, [], sim⟩ :
          FixedLineProcessor) := by
      rw [processAll_cons, h1, Option.some_bind, hrun]
      rfl
    have hlen : (toInputItem none o0 ::
        mapSimilar (⟨r, [toInputItem none o0], [], sim⟩ :
          FixedLineProcessor) (toInputItem none o0) t).length =
        (o0 :: t).length := by
      simp [mapSimilar]
    have hpos : ∀ x ∈ (toInputItem none o0 ::
        mapSimilar (⟨r, [toInputItem none o0], [], sim⟩ :
          FixedLineProcessor) (toInputItem none o0) t),
        0 < x.confidence := by
      intro x hx
      rcases List.mem_cons.mp hx with h | h
      · subst h
        exact lt_of_lt_of_le (by norm_num)
          (accepted_conf (hacc o0 (by simp)))
      · obtain ⟨o2, ho2, rfl⟩ := List.mem_map.mp h
        exact lt_of_lt_of_le (by norm_num)
          (accepted_conf (hacc o2 (by simp [ho2])))
    obtain ⟨hi, hconf, hmax, hfirst⟩ := findBest_spec _
      (List.cons_ne_nil _ _) hpos
    have hfl := flush_of_ne
      (s := (⟨r, toInputItem none o0 ::
        mapSimilar (⟨r, [toInputItem none o0], [], sim⟩ :
          FixedLineProcessor) (toInputItem none o0) t, [], sim⟩ :
        FixedLineProcessor)) (List.cons_ne_nil _ _)
    refine ⟨_, hkey, rfl, flush_input_empty _, ?_⟩
    have hi2 : (findBest (toInputItem none o0 ::
        mapSimilar (⟨r, [toInputItem none o0], [], sim⟩ :
          FixedLineProcessor) (toInputItem none o0) t)).2 <
        (o0 :: t).length := by
      rw [← hlen]
      exact hi
    obtain ⟨hcd, hct, hcc⟩ := buffer_corr r sim o0 t _ hi2
    refine ⟨⟨((toInputItem none o0 ::
        mapSimilar (⟨r, [toInputItem none o0], [], sim⟩ :
          FixedLineProcessor) (toInputItem none o0) t).getD
          (findBest (toInputItem none o0 ::
            mapSimilar (⟨r, [toInputItem none o0], [], sim⟩ :
              FixedLineProcessor) (toInputItem none o0) t)).2
          default).date,
      ((toInputItem none o0 ::
        mapSimilar (⟨r, [toInputItem none o0], [], sim⟩ :
          FixedLineProcessor) (toInputItem none o0) t).getD
          (findBest (toInputItem none o0 ::
            mapSimilar (⟨r, [toInputItem none o0], [], sim⟩ :
              FixedLineProcessor) (toInputItem none o0) t)).2
          default).text,
      ((toInputItem none o0 ::
        mapSimilar (⟨r, [toInputItem none o0], [], sim⟩ :
          FixedLineProcessor) (toInputItem none o0) t).getD
          (findBest (toInputItem none o0 ::
            mapSimilar (⟨r, [toInputItem none o0], [], sim⟩ :
              FixedLineProcessor) (toInputItem none o0) t)).2
          default).confidence⟩,
      (findBest (toInputItem none o0 ::
        mapSimilar (⟨r, [toInputItem none o0], [], sim⟩ :
          FixedLineProcessor) (toInputItem none o0) t)).2, ?_, hi2,
      ?_, ?_, ?_, ?_, ?_⟩
    · rw [hfl]
      rfl
    · exact hcd
    · exact hct
    · exact hcc
    · intro o2 ho2
      rcases List.mem_cons.mp ho2 with h | h
      · subst h
        dsimp only
        rw [hconf]
        exact hmax (toInputItem none o2) (by simp)
      · dsimp only
        rw [hconf]
        exact hmax (toInputItem
          (some (sim (toInputItem none o0).text o2.text)) o2)
          (List.mem_cons_of_mem _ (List.mem_map.mpr ⟨o2, h, rfl⟩))
    · intro j hj
      have hjlt : j < (o0 :: t).length := lt_trans hj hi2
      obtain ⟨_, _, hjc⟩ := buffer_corr r sim o0 t j hjlt
      have h3 := hfirst j hj
      rw [hjc] at h3
      dsimp only
      rw [hconf]
      exact h3

theorem fixedLine_flush_single_best_event_witness :
    ∃ s1, processAll (FixedLineProcessor.new wRegion wSimOne)
        [wObsA, wObsC] = some s1 ∧
      s1.output_buffer = [] ∧
      s1.flush_input_to_output_buffer.input_buffer = [] ∧
      ∃ e i, s1.flush_input_to_output_buffer.output_buffer = [e] ∧
        i < [wObsA, wObsC].length ∧
        e.date = ([wObsA, wObsC].getD i default).date ∧
        e.text = ([wObsA, wObsC].getD i default).text ∧
        e.confidence = obsConfidence ([wObsA, wObsC].getD i default) ∧
        (∀ o ∈ [wObsA, wObsC], obsConfidence o ≤ e.confidence) ∧
        (∀ j, j < i → obsConfidence ([wObsA, wObsC].getD j default) <
          e.confidence) :=
  fixedLine_flush_single_best_event wRegion wSimOne [wObsA, wObsC]
    (by simp)
    (by
      intro o ho
      rcases List.mem_cons.mp ho with h | h
      · subst h; exact wObsA_accepted
      · rcases List.mem_cons.mp h with h2 | h2
        · subst h2; exact wObsC_accepted
        · simp at h2)
    (by intro a _ b _; norm_num [wSimOne])

/-!
### The frame producer (`src/frame.rs`, `FrameDumper`)

`process_frame` is embedded as a pure step function over the producer's
mutable state, together with the ordered list of externally visible effects
it performs.  Presentation times (`f64`) become `ℚ`; the ffmpeg scaler is an
external collaborator, so the already-rescaled pixel data is a parameter;
the non-blocking `MessageServer::receive` outcome is a parameter of type
`Except Unit String` (`Except.error` models any receive error, including
EAGAIN when no request is pending; `Except.ok` carries the client's
address).
-/

/-- The externally visible actions of one `process_frame` call, in program
order. -/
inductive FrameEffect where
  | rescale
  | copyToSharedMemory
  | sendReply (client : String)
  | sleep
deriving DecidableEq, Repr

/-- The mutable state of `FrameDumper` relevant to `process_frame`. -/
structure FrameDumperModel where
  previous_presentation_time : ℚ
  shared_data : List ℕ
  rgb_frame : List ℕ
  skip_sleep : Bool
deriving DecidableEq, Repr

/-- `FrameDumper::process_frame` (`src/frame.rs` lines 172-208):
`presentation_time` is `pts * time_base`; act only when the throttle allows;
on a receive error return immediately; otherwise rescale, copy into shared
memory, update the last-acted time, reply, and (unless `skip_sleep`)
sleep. -/
def process_frame (s : FrameDumperModel) (presentation_time : ℚ)
    (receive_result : Except Unit String) (scaled : List ℕ) :
    FrameDumperModel × List FrameEffect :=
  if presentation_time - s.previous_presentation_time > 1/10
      ∨ s.previous_presentation_time = 0 then
    match receive_result with
    | Except.error _ => (s, [])
    | Except.ok client_name =>
        ({ s with
            rgb_frame := scaled
            shared_data := scaled
            previous_presentation_time := presentation_time },
          [FrameEffect.rescale, FrameEffect.copyToSharedMemory,
            FrameEffect.sendReply client_name] ++
            if s.skip_sleep then [] else [FrameEffect.sleep])
  else (s, [])

/-! ### C5: throttling, and skipping when no request is pending -/

/-- C5: `process_frame` acts only if this is the first frame
(`previous_presentation_time` still 0) or the presentation time exceeds the
last acted-upon frame's by more than 0.1 s; and whenever there is no pending
client request (receive fails), the frame is skipped entirely: no rescale,
no copy into the shared segment, and the last-acted presentation time stays
unchanged. -/
theorem frame_producer_throttle_and_skip (s : FrameDumperModel)
    (presentation_time : ℚ) (receive_result : Except Unit String)
    (scaled : List ℕ)
    (hthrottle : ¬ (presentation_time - s.previous_presentation_time > 1/10
      ∨ s.previous_presentation_time = 0)) :
    process_frame s presentation_time receive_result scaled = (s, []) ∧
    ∀ (s2 : FrameDumperModel) (pt2 : ℚ) (scaled2 : List ℕ),
      process_frame s2 pt2 (Except.error ()) scaled2 = (s2, []) ∧
      (process_frame s2 pt2 (Except.error ())
        scaled2).1.previous_presentation_time =
        s2.previous_presentation_time ∧
      FrameEffect.rescale ∉ (process_frame s2 pt2 (Except.error ())
        scaled2).2 ∧
      FrameEffect.copyToSharedMemory ∉
        (process_frame s2 pt2 (Except.error ()) scaled2).2 := by
  have hskip : ∀ (s2 : FrameDumperModel) (pt2 : ℚ) (scaled2 : List ℕ),
      process_frame s2 pt2 (Except.error ()) scaled2 = (s2, []) := by
    intro s2 pt2 scaled2
    unfold process_frame
    split
    · rfl
    · rfl
  constructor
  · unfold process_frame
    rw [if_neg hthrottle]
  · intro s2 pt2 scaled2
    refine ⟨hskip s2 pt2 scaled2, ?_, ?_, ?_⟩
    · rw [hskip s2 pt2 scaled2]
    · rw [hskip s2 pt2 scaled2]; simp
    · rw [hskip s2 pt2 scaled2]; simp

def wFrameState : FrameDumperModel := ⟨1, [0], [0], false⟩

theorem frame_producer_throttle_and_skip_witness :
    process_frame wFrameState (21/20) (Except.ok "client") [7] =
      (wFrameState, []) ∧
    process_frame wFrameState (21/20) (Except.error ()) [7] =
      (wFrameState, []) ∧
    (process_frame wFrameState (21/20) (Except.error ())
      [7]).1.previous_presentation_time =
      wFrameState.previous_presentation_time ∧
    FrameEffect.rescale ∉
      (process_frame wFrameState (21/20) (Except.error ()) [7]).2 ∧
    FrameEffect.copyToSharedMemory ∉
      (process_frame wFrameState (21/20) (Except.error ()) [7]).2 := by
  have h := frame_producer_throttle_and_skip wFrameState (21/20)
    (Except.ok "client") [7]
    (by
      unfold wFrameState
      push_neg
      constructor
      · norm_num
      · norm_num)
  obtain ⟨h2, h3, h4, h5⟩ := h.2 wFrameState (21/20) [7]
  exact ⟨h.1, h2, h3, h4, h5⟩

/-! ### C6: the reply is sent only after the copy -/

/-- C6: within every `process_frame` call that sends a reply, the copy of
the rescaled frame into the shared memory segment occurs strictly earlier in
the effect sequence (program order) than the reply send. -/
theorem frame_reply_after_copy (s : FrameDumperModel)
    (presentation_time : ℚ) (receive_result : Except Unit String)
    (scaled : List ℕ) (client : String)
    (hsend : FrameEffect.sendReply client ∈
      (process_frame s presentation_time receive_result scaled).2) :
    ∃ i j, i < j ∧
      (process_frame s presentation_time receive_result scaled).2.get? i =
        some FrameEffect.copyToSharedMemory ∧
      (process_frame s presentation_time receive_result scaled).2.get? j =
        some (FrameEffect.sendReply client) := by
  by_cases hc : presentation_time - s.previous_presentation_time > 1/10
      ∨ s.previous_presentation_time = 0
  · cases receive_result with
    | error e =>
        have heff : (process_frame s presentation_time (Except.error e)
            scaled).2 = [] := by
          unfold process_frame
          rw [if_pos hc]
        rw [heff] at hsend
        simp at hsend
    | ok c =>
        have heff : (process_frame s presentation_time (Except.ok c)
            scaled).2 =
            [FrameEffect.rescale, FrameEffect.copyToSharedMemory,
              FrameEffect.sendReply c] ++
              (if s.skip_sleep then [] else [FrameEffect.sleep]) := by
          unfold process_frame
          rw [if_pos hc]
        rw [heff] at hsend ⊢
        have hc2 : client = c := by
          rcases List.mem_append.mp hsend with h | h
          · simp at h
            exact h
          · split at h <;> simp at h
        subst hc2
        exact ⟨1, 2, by omega, rfl, rfl⟩
  · have heff : (process_frame s presentation_time receive_result
        scaled).2 = [] := by
      unfold process_frame
      rw [if_neg hc]
    rw [heff] at hsend
    simp at hsend

theorem frame_reply_after_copy_witness :
    FrameEffect.sendReply "client" ∈
      (process_frame wFrameState 2 (Except.ok "client") [7]).2 ∧
    ∃ i j, i < j ∧
      (process_frame wFrameState 2 (Except.ok "client") [7]).2.get? i =
        some FrameEffect.copyToSharedMemory ∧
      (process_frame wFrameState 2 (Except.ok "client") [7]).2.get? j =
        some (FrameEffect.sendReply "client") := by
  have hmem : FrameEffect.sendReply "client" ∈
      (process_frame wFrameState 2 (Except.ok "client") [7]).2 := by
    unfold process_frame wFrameState
    rw [if_pos (by norm_num)]
    simp
  exact ⟨hmem, frame_reply_after_copy wFrameState 2 (Except.ok "client")
    [7] "client" hmem⟩

/-!
### The frame consumer (`src/frame.rs`, `FrameReader`)

`FrameReader::new` opens the shared segment and the message client and sets
a fixed 2-second socket timeout; `read` sends an empty request datagram and
then blocks on receive.  Socket outcomes are parameters (`Except.ok` with
the transferred size, `Except.error` with the underlying error text —
covering both a receive timeout and any other I/O failure, which the Rust
code does not distinguish).
-/

/-- The configuration state `FrameReader::new` establishes
(`src/frame.rs` lines 219-236): the fixed 2-second timeout installed on the
message client. -/
structure FrameReaderModel where
  width : ℕ
  height : ℕ
  timeout_seconds : Option ℚ
deriving DecidableEq, Repr

/-- `FrameReader::new` (lines 219-236), success path. -/
def FrameReader.new (width height : ℕ) : FrameReaderModel :=
  { width := width, height := height, timeout_seconds := some 2 }

/-- The steps `FrameReader::read` performs, in program order. -/
inductive ReadStep where
  | sendRequest
  | receiveReply
deriving DecidableEq, Repr

/-- `FrameReader::read` (lines 254-262): send the request; on send failure
propagate it; otherwise block on receive, and on any receive failure
(timeout included) surface the wrapped "Disconnected ..." error; on success
return `Ok(())`. -/
def FrameReader.read (send_result : Except String ℕ)
    (receive_result : Except String ℕ) : Except String Unit × List ReadStep :=
  match send_result with
  | Except.error e => (Except.error e, [ReadStep.sendRequest])
  | Except.ok _ =>
      match receive_result with
      | Except.error _ =>
          (Except.error
            "Disconnected or error sending message to message server",
            [ReadStep.sendRequest, ReadStep.receiveReply])
      | Except.ok _ =>
          (Except.ok (), [ReadStep.sendRequest, ReadStep.receiveReply])

/-! ### C7: `read` surfaces receive failures -/

/-- C7: `FrameReader::new` installs a fixed 2-second receive timeout;
`read` first sends the request datagram and then blocks on receive; every
receive timeout or I/O error is surfaced to the caller as the
"disconnected or no response" failure, never swallowed, and every
successful receive yields a successful `read`. -/
theorem frame_reader_read_surfaces_errors (width height n : ℕ)
    (e : String) :
    (FrameReader.new width height).timeout_seconds = some 2 ∧
    (FrameReader.read (Except.ok n) (Except.error e)).1 =
      Except.error
        "Disconnected or error sending message to message server" ∧
    (FrameReader.read (Except.ok n) (Except.error e)).2 =
      [ReadStep.sendRequest, ReadStep.receiveReply] ∧
    ∀ m : ℕ, FrameReader.read (Except.ok n) (Except.ok m) =
      (Except.ok (), [ReadStep.sendRequest, ReadStep.receiveReply]) :=
  ⟨rfl, rfl, rfl, fun _ => rfl⟩

/-!
### The shared memory segment (`src/shared_memory.rs`)

The POSIX shared-memory namespace is modelled as an association list from
object names to their current sizes.  `shm_open`, `ftruncate` and `mmap`
are external (libc/OS) collaborators embedded by their documented
semantics: without `O_CREAT`, `shm_open` fails with ENOENT when the name
does not exist; with `O_CREAT` it creates a zero-sized object when absent
or attaches to the existing one; `ftruncate` resizes the opened object;
`mmap` maps it (resource-exhaustion failures are outside the claims'
scope and are not modelled).
-/

/-- One step of the modelled OS namespace: set the size of an existing
object. -/
def setSegSize : List (String × ℕ) → String → ℕ → List (String × ℕ)
  | [], _, _ => []
  | (n, s) :: rest, name, sz =>
      if n = name then (n, sz) :: rest else (n, s) :: setSegSize rest name sz

/-- Modelled POSIX `shm_open`: returns the updated namespace and the opened
object's name (standing in for the file descriptor). -/
def shm_open (env : List (String × ℕ)) (name : String) (o_creat : Bool) :
    Except String (List (String × ℕ) × String) :=
  match env.lookup name with
  | some _ => Except.ok (env, name)
  | none =>
      if o_creat then Except.ok ((name, 0) :: env, name)
      else Except.error ("Failed to open shared memory " ++ name)

/-- Modelled POSIX `ftruncate` on an object opened by name. -/
def shm_ftruncate (env : List (String × ℕ)) (fd_name : String) (sz : ℕ) :
    Except String (List (String × ℕ)) :=
  match env.lookup fd_name with
  | some _ => Except.ok (setSegSize env fd_name sz)
  | none => Except.error "EBADF"

/-- The shared memory object name `/tppocr_<id>` built in
`SharedMemory::open_` (`src/shared_memory.rs` line 32). -/
def shm_name (id : ℕ) : String := "/tppocr_" ++ toString id

/-- `SharedMemory::open_shared_memory` (`src/shared_memory.rs` lines
87-116): `shm_open` with `O_RDWR` (and `O_CREAT` iff `create`), then
`ftruncate` to `data_size`, then `mmap`. -/
def open_shared_memory (env : List (String × ℕ)) (data_size : ℕ)
    (name : String) (create : Bool) :
    Except String (List (String × ℕ) × String) :=
  match shm_open env name create with
  | Except.error e => Except.error e
  | Except.ok (env1, fd) =>
      match shm_ftruncate env1 fd data_size with
      | Except.error e => Except.error e
      | Except.ok env2 => Except.ok (env2, fd)

/-- `SharedMemory::open_` (lines 30-43). -/
def SharedMemory.open_ (env : List (String × ℕ)) (id : ℕ)
    (data_size : ℕ) (create : Bool) :
    Except String (List (String × ℕ) × String) :=
  open_shared_memory env data_size (shm_name id) create

/-- `SharedMemory::open_or_create` (lines 22-24). -/
def SharedMemory.open_or_create (env : List (String × ℕ)) (id : ℕ)
    (data_size : ℕ) : Except String (List (String × ℕ) × String) :=
  SharedMemory.open_ env id data_size true

/-- `SharedMemory::open` (lines 26-28); named `open_existing` because
`open` is a Lean keyword. -/
def SharedMemory.open_existing (env : List (String × ℕ)) (id : ℕ)
    (data_size : ℕ) : Except String (List (String × ℕ) × String) :=
  SharedMemory.open_ env id data_size false

theorem lookup_setSegSize_self (env : List (String × ℕ)) (name : String)
    (sz : ℕ) (h : (env.lookup name).isSome) :
    (setSegSize env name sz).lookup name = some sz := by
  induction env with
  | nil => simp [List.lookup] at h
  | cons p rest ih =>
      obtain ⟨n, s⟩ := p
      by_cases hn : n = name
      · subst hn
        simp [setSegSize, List.lookup]
      · rw [List.lookup_cons] at h
        simp only [setSegSize, if_neg hn]
        rw [List.lookup_cons]
        have hb : (name == n) = false := by
          simp [BEq.beq]
          exact fun he => hn he.symm
        rw [hb] at h ⊢
        exact ih h

/-! ### C8: `open` requires a pre-existing segment -/

/-- C8: `SharedMemory::open(id, size)` fails when no segment with that id
pre-exists, while `open_or_create(id, size)` succeeds: it creates a segment
of exactly `size` bytes if absent, and attaches to the existing segment of
that name otherwise (truncating it to `size`). -/
theorem shared_memory_open_requires_existing (env : List (String × ℕ))
    (id : ℕ) (data_size : ℕ) :
    (env.lookup (shm_name id) = none →
      SharedMemory.open_existing env id data_size =
        Except.error ("Failed to open shared memory " ++ shm_name id)) ∧
    (env.lookup (shm_name id) = none →
      SharedMemory.open_or_create env id data_size =
        Except.ok ((shm_name id, data_size) :: env, shm_name id)) ∧
    (∀ s0, env.lookup (shm_name id) = some s0 →
      ∃ env2, SharedMemory.open_or_create env id data_size =
        Except.ok (env2, shm_name id) ∧
        env2.lookup (shm_name id) = some data_size) := by
  refine ⟨?_, ?_, ?_⟩
  · intro habs
    unfold SharedMemory.open_existing SharedMemory.open_
      open_shared_memory shm_open
    rw [habs]
    rfl
  · intro habs
    unfold SharedMemory.open_or_create SharedMemory.open_
      open_shared_memory shm_open
    rw [habs]
    simp only [if_pos]
    unfold shm_ftruncate
    rw [List.lookup_cons]
    simp [setSegSize]
  · intro s0 hsome
    unfold SharedMemory.open_or_create SharedMemory.open_
      open_shared_memory shm_open
    rw [hsome]
    dsimp only
    unfold shm_ftruncate
    rw [hsome]
    dsimp only
    exact ⟨setSegSize env (shm_name id) data_size, rfl,
      lookup_setSegSize_self env (shm_name id) data_size
        (by rw [hsome]; rfl)⟩

theorem shared_memory_open_requires_existing_witness :
    (([] : List (String × ℕ)).lookup (shm_name 5) = none) ∧
    SharedMemory.open_existing [] 5 64 =
      Except.error ("Failed to open shared memory " ++ shm_name 5) ∧
    SharedMemory.open_or_create [] 5 64 =
      Except.ok ([(shm_name 5, 64)], shm_name 5) ∧
    ∃ env2, SharedMemory.open_or_create [(shm_name 5, 3)] 5 64 =
      Except.ok (env2, shm_name 5) ∧
      env2.lookup (shm_name 5) = some 64 := by
  have h1 := shared_memory_open_requires_existing [] 5 64
  have h2 := shared_memory_open_requires_existing [(shm_name 5, 3)] 5 64
  refine ⟨rfl, h1.1 rfl, h1.2.1 rfl, h2.2.2 3 ?_⟩
  rw [List.lookup_cons]
  simp

end Tppocr
